import Mathlib

/-!
Verification development for the dentalscraper repository.

JavaScript strings are modeled as `List Char`; machine numbers that stay
in small non-negative ranges are modeled as `Nat`; JS `null`/absent values
are modeled with `Option`.  Effectful code (DOM queries, navigation,
database calls) is modeled by passing the observed environment explicitly
(a `Page` record of query results, an attempt-outcome function, a pure
store state), and each definition is translated from the corresponding
function in `src/scraper.js` or `src/db/dataProcessor.js`.
-/

namespace Dental

/-- JS strings as character lists. -/
abbrev Str := List Char

/-- ASCII whitespace as used by JS `trim` and `\s` on the strings this
program handles. -/
def wsChar (c : Char) : Bool :=
  c = ' ' || c = '\t' || c = '\n' || c = '\r'

/-- JS `String.prototype.trim`: drop whitespace from both ends. -/
def jsTrim (s : Str) : Str :=
  ((s.dropWhile wsChar).reverse.dropWhile wsChar).reverse

/-- JS `String.prototype.includes(pat)`: substring test. -/
def strContains (hay pat : Str) : Bool :=
  match hay with
  | [] => pat.isPrefixOf hay
  | _ :: t => pat.isPrefixOf hay || strContains t pat

/-- JS `String.prototype.endsWith(pat)`. -/
def strEndsWith (hay pat : Str) : Bool :=
  pat.reverse.isPrefixOf hay.reverse

/-- JS `String.prototype.replace(pat, "")` for a plain-string pattern:
remove the first occurrence of `pat`, if any. -/
def replaceFirst (hay pat : Str) : Str :=
  match hay with
  | [] => []
  | c :: t => if pat.isPrefixOf hay then hay.drop pat.length else c :: replaceFirst t pat

/-- JS `\w` word characters (ASCII letters, digits, underscore). -/
def wordChar (c : Char) : Bool :=
  (c.isAlpha || c.isDigit) || c = '_'

/-- Word-character test for an optional neighbouring character; a missing
neighbour (string boundary) counts as a non-word character, as in JS `\b`. -/
def wordCharOpt : Option Char → Bool
  | none => false
  | some c => wordChar c

/-- Numeric value of a list of decimal digit characters. -/
def digitsToNat (ds : Str) : Nat :=
  ds.foldl (fun acc c => 10 * acc + (c.toNat - '0'.toNat)) 0

/-- First match of the JS regex `/\b\d{1,4}\b/` in a string, scanning one
position at a time as the regex engine does: a match starts at a digit
preceded by a non-word character (or the start), covers the maximal digit
run when it is 1–4 digits long, and must be followed by a non-word
character (or the end); a position that fails just advances the scan.
Returns the numeric value of the first match. -/
def firstBoundedNumber : Option Char → Str → Option Nat
  | _, [] => none
  | prev, c :: rest =>
    if c.isDigit && !wordCharOpt prev then
      let run := c :: rest.takeWhile Char.isDigit
      if run.length ≤ 4 && !wordCharOpt ((rest.dropWhile Char.isDigit).head?) then
        some (digitsToNat run)
      else
        firstBoundedNumber (some c) rest
    else
      firstBoundedNumber (some c) rest

/-! ### AdaptiveConcurrency (src/scraper.js, class AdaptiveConcurrency)

The wall-clock guard `now - lastAdjustment < 30000` is abstracted into the
Boolean `elapsed`, and the `ResourceMonitor.checkSystemResources` probe
into the Boolean `resourcesOK`; both are inputs observed at each call. -/

structure AdaptiveConcurrency where
  currentConcurrent : Nat
  maxConcurrent : Nat
  errorCount : Nat
  successCount : Nat
deriving DecidableEq, Repr

/-- `new AdaptiveConcurrency(4, 8)` as built by `CONFIG`. -/
def AdaptiveConcurrency.init : AdaptiveConcurrency :=
  { currentConcurrent := 4, maxConcurrent := 8, errorCount := 0, successCount := 0 }

/-- `AdaptiveConcurrency.adjust`: returns the state unchanged when less
than 30 s have passed; otherwise runs the evaluation branches and zeroes
the success counter. -/
def AdaptiveConcurrency.adjust (elapsed resourcesOK : Bool)
    (s : AdaptiveConcurrency) : AdaptiveConcurrency :=
  if elapsed = false then s
  else
    let s :=
      if resourcesOK = false ∨ 5 < s.errorCount then
        { s with currentConcurrent := max 2 (s.currentConcurrent - 1), errorCount := 0 }
      else if s.errorCount = 0 ∧ 10 < s.successCount ∧ resourcesOK = true then
        { s with currentConcurrent := min s.maxConcurrent (s.currentConcurrent + 1) }
      else s
    { s with successCount := 0 }

/-- `recordError`: increment the error counter, then `adjust()`. -/
def AdaptiveConcurrency.recordError (elapsed resourcesOK : Bool)
    (s : AdaptiveConcurrency) : AdaptiveConcurrency :=
  AdaptiveConcurrency.adjust elapsed resourcesOK { s with errorCount := s.errorCount + 1 }

/-- `recordSuccess`: increment the success counter, then `adjust()`. -/
def AdaptiveConcurrency.recordSuccess (elapsed resourcesOK : Bool)
    (s : AdaptiveConcurrency) : AdaptiveConcurrency :=
  AdaptiveConcurrency.adjust elapsed resourcesOK { s with successCount := s.successCount + 1 }

/-- One observed completion event: which counter it feeds, whether the
30-second window had elapsed at that moment, and what the resource probe
reported. -/
structure ConcurrencyEvent where
  isError : Bool
  elapsed : Bool
  resourcesOK : Bool

/-- Feed one event to the governor. -/
def AdaptiveConcurrency.step (e : ConcurrencyEvent)
    (s : AdaptiveConcurrency) : AdaptiveConcurrency :=
  if e.isError then s.recordError e.elapsed e.resourcesOK
  else s.recordSuccess e.elapsed e.resourcesOK

/-- Run a whole sequence of completion events from a starting state. -/
def AdaptiveConcurrency.run (evs : List ConcurrencyEvent)
    (s : AdaptiveConcurrency) : AdaptiveConcurrency :=
  evs.foldl (fun s e => AdaptiveConcurrency.step e s) s

/-! ### cleanPrice (src/scraper.js, function cleanPrice) -/

/-- JS `/\$\s+/` replaced once by `"$"`: at the first `$` that is followed
by whitespace, delete the whitespace run after it. -/
def collapseDollarWs : Str → Str
  | [] => []
  | c :: rest =>
    if c = '$' && (rest.head?.elim false wsChar) then
      c :: rest.dropWhile wsChar
    else
      c :: collapseDollarWs rest

/-- Is there an occurrence of `$` immediately followed by whitespace
(the JS pattern `/\$\s+/`)? -/
def hasDollarWs : Str → Bool
  | [] => false
  | c :: rest => (c = '$' && (rest.head?.elim false wsChar)) || hasDollarWs rest

/-- `cleanPrice` from src/scraper.js: falsy input gives `""`; otherwise
trim, keep the first line, strip the `"Precio web:"` and `"Precio:"`
labels (first occurrence each), prefix `$` when absent, and collapse the
first `$`-whitespace gap. -/
def cleanPrice (priceText : Str) : Str :=
  if priceText = [] then []
  else
    let cleaned := jsTrim priceText
    let cleaned :=
      if strContains cleaned ['\n'] then jsTrim (cleaned.takeWhile (· ≠ '\n'))
      else cleaned
    let cleaned :=
      jsTrim (replaceFirst (replaceFirst cleaned ("Precio web:".toList)) ("Precio:".toList))
    let cleaned := if strContains cleaned ['$'] then cleaned else '$' :: cleaned
    collapseDollarWs cleaned

/-- A string is in fully-cleaned form when every step of `cleanPrice`
fixes it: empty, or trimmed, newline-free, label-free, `$`-bearing, with
no `$`-whitespace gap. -/
def cleanForm (t : Str) : Bool :=
  t = [] ||
    (jsTrim t = t && !strContains t ['\n'] &&
      !strContains t ("Precio web:".toList) && !strContains t ("Precio:".toList) &&
      strContains t ['$'] && !hasDollarWs t)

/-! ### isProductPage (src/scraper.js, function isProductPage)

The page-side evaluation reads a fixed set of DOM and URL probes; the
vector of their Boolean results is the classifier's input. -/

structure PageSignals where
  hasAddToCartButton : Bool
  hasPriceElement : Bool
  hasProductTitle : Bool
  hasProductGallery : Bool
  hasJumpSellerProductForm : Bool
  hasWooCommerceProductElements : Bool
  hasStockInfo : Bool
  hasProductTerms : Bool
  hasProductForm : Bool
  hasSku : Bool
  isOrtotekProduct : Bool
  hasStockComment : Bool
  hasCartPostForm : Bool
  hasProductPathPattern : Bool
deriving DecidableEq, Repr

/-- The score accumulated by `isProductPage`, one contribution per signal
in source order (`score += w` guarded by the signal). -/
def productScore (p : PageSignals) : Nat :=
  (cond p.hasAddToCartButton 2 0) +
  (cond p.hasPriceElement 2 0) +
  (cond p.hasProductTitle 1 0) +
  (cond p.hasProductGallery 1 0) +
  (cond p.hasJumpSellerProductForm 2 0) +
  (cond p.hasWooCommerceProductElements 2 0) +
  (cond p.hasStockInfo 1 0) +
  (cond p.hasProductTerms 1 0) +
  (cond p.hasProductForm 2 0) +
  (cond p.hasSku 2 0) +
  (cond p.isOrtotekProduct 3 0) +
  (cond p.hasStockComment 2 0) +
  (cond p.hasCartPostForm 3 0) +
  (cond p.hasProductPathPattern 2 0)

/-- `return score >= 3`. -/
def isProductPage (p : PageSignals) : Bool :=
  decide (3 ≤ productScore p)

/-- The weighted sum exactly as the claim lists it: +2 purchase control,
+2 price element, +1 title, +1 gallery, +2 each platform marker, +1 stock
indicator, +1 product phrases, +2 product form, +2 SKU, +2 URL-path
pattern, +2 stock HTML comment, +3 checkout-post form, +3 strong URL
indicator. -/
def claimedScore (p : PageSignals) : Nat :=
  2 * p.hasAddToCartButton.toNat +
  2 * p.hasPriceElement.toNat +
  1 * p.hasProductTitle.toNat +
  1 * p.hasProductGallery.toNat +
  2 * p.hasJumpSellerProductForm.toNat +
  2 * p.hasWooCommerceProductElements.toNat +
  1 * p.hasStockInfo.toNat +
  1 * p.hasProductTerms.toNat +
  2 * p.hasProductForm.toNat +
  2 * p.hasSku.toNat +
  2 * p.hasProductPathPattern.toNat +
  2 * p.hasStockComment.toNat +
  3 * p.hasCartPostForm.toNat +
  3 * p.isOrtotekProduct.toNat

/-! ### extractStockInfo (src/scraper.js, function extractStockInfo)

The in-page DOM reads are modeled as an explicit record of query results:
what each CSS query would return on the loaded page. -/

/-- Result record `{ status, quantity }`. -/
structure StockInfo where
  status : Str
  quantity : Option Nat
deriving DecidableEq, Repr

/-- Observable state of a loaded page, as read by `extractStockInfo`. -/
structure StockPage where
  /-- `querySelector(".form-group.product-stock")`, and within it
  `querySelector(".form-control-label")`: `none` when the block is absent,
  `some none` when it exists without a label, `some (some t)` when the
  label exists with text content `t`. -/
  damusStockLabel : Option (Option Str)
  /-- `querySelector(sel)?.textContent` for each stock selector. -/
  selectorText : Str → Option Str
  /-- The combined add-to-cart query: `none` when no purchase control
  matches, otherwise `some disabled`. -/
  addToCartDisabled : Option Bool
  /-- `document.body.textContent`. -/
  bodyText : Str
  /-- For a phrase, the `textContent` of the first element in document
  order (over `querySelectorAll("*")`) whose text contains it, if any. -/
  elementTextContaining : Str → Option Str

/-- The out-of-stock phrases (`stockTexts.agotado`). -/
def agotadoTexts : List Str :=
  ["Agotado", "Out of stock", "Sin stock", "No disponible", "Sold out"].map String.toList

/-- The in-stock phrases (`stockTexts.disponible`). -/
def disponibleTexts : List Str :=
  ["En stock", "Disponible", "In stock", "Disponibilidad:"].map String.toList

/-- Quantity update from a piece of text: the first `/\b\d{1,4}\b/` match
is kept when it parses into `[0, 10000)`, otherwise the previous quantity
is retained. -/
def qtyFromText (t : Str) (prev : Option Nat) : Option Nat :=
  match firstBoundedNumber none t with
  | some n => if n < 10000 then some n else prev
  | none => prev

/-- The default stock-selector list of `getSiteSelectors`. -/
def defaultStockSelectors : List Str :=
  [".stock", ".availability", ".product-stock", ".inventory_status"].map String.toList

/-- `extractStockInfo`, step for step: the labeled platform stock block
returns early; then the selector loop, the disabled purchase control, the
out-of-stock body scan (which clears the quantity), and the in-stock body
scan, each overwriting the status set before it. -/
def extractStockInfo (stockSelectors : List Str) (page : StockPage) : StockInfo :=
  match page.damusStockLabel with
  | some (some lbl) => { status := jsTrim lbl, quantity := none }
  | _ =>
    let sq0 : Str × Option Nat := ("Desconocido".toList, none)
    let sq1 : Str × Option Nat :=
      match List.findSome? page.selectorText stockSelectors with
      | some t => (jsTrim t, qtyFromText (jsTrim t) sq0.2)
      | none => sq0
    let status2 : Str :=
      if page.addToCartDisabled = some true then "Agotado".toList else sq1.1
    let sq3 : Str × Option Nat :=
      match agotadoTexts.find? (fun t => strContains page.bodyText t) with
      | some _ => ("Agotado".toList, none)
      | none => (status2, sq1.2)
    let sq4 : Str × Option Nat :=
      match disponibleTexts.find? (fun t => strContains page.bodyText t) with
      | some t =>
        match page.elementTextContaining t with
        | some sectionText => ("En stock".toList, qtyFromText sectionText sq3.2)
        | none => ("En stock".toList, sq3.2)
      | none => sq3
    { status := sq4.1, quantity := sq4.2 }

/-! ### JumpSeller sitemap (src/scraper.js, processJumpSellerSitemap) -/

/-- One `<url>` entry of a parsed sitemap (`item.loc[0]`, `item.lastmod`). -/
structure SitemapUrlItem where
  loc : Str
  lastmod : Option Str
deriving DecidableEq, Repr

/-- The sitemap descriptor fields used by the filter. -/
structure SitemapInfo where
  site : Str
  platform : Str
deriving DecidableEq, Repr

/-- A produced URL entry `{url, site, platform, lastmod}`. -/
structure UrlEntry where
  url : Str
  site : Str
  platform : Str
  lastmod : Option Str
deriving DecidableEq, Repr

/-- Suffix of `hay` after the first occurrence of `pat`, if any. -/
def suffixAfter (hay pat : Str) : Option Str :=
  if pat.isPrefixOf hay then some (hay.drop pat.length)
  else
    match hay with
    | [] => none
    | _ :: t => suffixAfter t pat

/-- `new URL(u).pathname` for the absolute http(s) URLs handled here:
the part from the first `/` after the authority up to any `?` or `#`,
or `/` when the URL has no path. -/
def pathnameOf (u : Str) : Str :=
  match suffixAfter u ("://".toList) with
  | none => ['/']
  | some rest =>
    let beforeQuery := rest.takeWhile (fun c => c ≠ '?' && c ≠ '#')
    let path := beforeQuery.dropWhile (· ≠ '/')
    if path = [] then ['/'] else path

/-- JS `String.prototype.split(sep)` for a single-character separator. -/
def splitOnChar (sep : Char) : Str → List Str
  | [] => [[]]
  | c :: t =>
    match splitOnChar sep t with
    | [] => [[c]]
    | h :: rest => if c = sep then [] :: h :: rest else (c :: h) :: rest

/-- The static deny-list of `processJumpSellerSitemap` (site homepage,
contact, storefront, `.cl/acero`, cart, checkout, account, login,
register, search, collections, pages). -/
def jumpSellerDeny (site : Str) (url : Str) : Bool :=
  let homepage := "https://www.".toList ++ site ++ ".cl".toList
  url = homepage || url = homepage ++ ['/'] ||
  strContains url ("/contact".toList) ||
  strContains url ("/tienda".toList) ||
  strEndsWith url (".cl/acero".toList) ||
  strContains url ("/cart".toList) ||
  strContains url ("/checkout".toList) ||
  strContains url ("/account".toList) ||
  strContains url ("/login".toList) ||
  strContains url ("/register".toList) ||
  strContains url ("/search".toList) ||
  strContains url ("/collections".toList) ||
  strContains url ("/pages/".toList)

/-- `isLikelyProductUrl`: ≥ 2 non-empty path segments, or a hyphen, or a
digit in the path. -/
def isLikelyProductUrl (url : Str) : Bool :=
  let urlPath := pathnameOf url
  let pathSegments := (splitOnChar '/' urlPath).filter (fun seg => seg.length > 0)
  decide (pathSegments.length ≥ 2) || strContains urlPath ['-'] || urlPath.any Char.isDigit

/-- The entry pushed for a retained URL. -/
def mkUrlEntry (info : SitemapInfo) (item : SitemapUrlItem) : UrlEntry :=
  { url := item.loc, site := info.site, platform := info.platform, lastmod := item.lastmod }

/-- `processJumpSellerSitemap`: the loop over `result.urlset.url`,
skipping denied URLs and pushing entries for likely product URLs. -/
def processJumpSellerSitemap (info : SitemapInfo) (items : List SitemapUrlItem) : List UrlEntry :=
  items.foldl
    (fun acc item =>
      if jumpSellerDeny info.site item.loc then acc
      else if isLikelyProductUrl item.loc then acc ++ [mkUrlEntry info item]
      else acc)
    []

/-- The positive heuristic as the specification words it: the path has
≥ 2 non-empty segments, or contains a hyphen, or contains a digit. -/
def specLikelyProduct (url : Str) : Bool :=
  let p := pathnameOf url
  decide (2 ≤ ((splitOnChar '/' p).filter (fun seg => seg ≠ [])).length) ||
  strContains p ['-'] || p.any Char.isDigit

/-! ### scrapeProductsForDomain (src/scraper.js)

Navigation, classification and extraction are effects; per URL the model
receives the outcome each attempt would observe: a thrown error (caught by
the retry handler), a negative classifier verdict, or extracted product
data. -/

/-- `CONFIG.maxRetries`. -/
def maxRetries : Nat := 3

/-- The scraper's product record, as built by the extractors and by the
error paths of the domain loop (`src/scraper.js`).  `specifications`
carries the serialized form of the extracted mapping, `none` when the
extractor returned `null`; absent string fields are `[]`, as JS `""`. -/
structure ProductData where
  name : Str
  price : Str
  stock : Str
  quantity : Option Nat
  link : Str
  url : Str
  image : Str
  site : Str
  platform : Str
  sku : Str
  brand : Str
  presentation : Str
  description : Str
  specifications : Option Str
deriving DecidableEq, Repr

/-- What one navigation/extraction attempt at a URL would observe. -/
inductive AttemptOutcome where
  | thrown (msg : Str)
  | notProduct
  | productOk (d : ProductData)
deriving DecidableEq, Repr

/-- One URL of a domain batch together with the outcome each retry
attempt would observe. -/
structure UrlTask where
  url : Str
  site : Str
  platform : Str
  attempts : Nat → AttemptOutcome

/-- The records the domain loop pushes: a successful extraction, the
informational non-product record (carrying its error reason), or the
terminal error record after exhausted retries. -/
inductive DomainResult where
  | extracted (d : ProductData)
  | nonProduct (url : Str)
  | failed (url : Str) (errMsg : Str)
deriving DecidableEq, Repr

/-- The static non-product deny-list shared by `processDirectSitemap` and
the short-circuit check of `scrapeProductsForDomain`. -/
def directDeny (url : Str) : Bool :=
  strContains url ("/tienda".toList) ||
  strEndsWith url ("/tienda/".toList) ||
  strContains url ("/cart".toList) ||
  strContains url ("/checkout".toList) ||
  strContains url ("/account".toList) ||
  strContains url ("/login".toList) ||
  strContains url ("/register".toList) ||
  strContains url ("/search".toList) ||
  strContains url ("/my-account".toList) ||
  strContains url ("/wishlist".toList) ||
  strContains url ("/contact".toList) ||
  strContains url ("/about".toList) ||
  strContains url ("/blog".toList)

/-- The `while (!success && retryCount <= CONFIG.maxRetries)` loop: a
non-product verdict or an extraction ends the loop with one pushed record;
a thrown error increments the retry counter and pushes the terminal error
record once the counter exceeds `maxRetries`. -/
def attemptLoop (t : UrlTask) (retryCount : Nat) : List DomainResult :=
  if retryCount ≤ maxRetries then
    match t.attempts retryCount with
    | .notProduct => [.nonProduct t.url]
    | .productOk d => [.extracted d]
    | .thrown msg =>
      if retryCount + 1 > maxRetries then [.failed t.url msg]
      else attemptLoop t (retryCount + 1)
  else []
termination_by maxRetries + 1 - retryCount
decreasing_by simp_wf; omega

/-- The records pushed for one URL of the batch: the deny-list
short-circuit, else the retry loop. -/
def recordsForUrl (t : UrlTask) : List DomainResult :=
  if directDeny t.url then [.nonProduct t.url] else attemptLoop t 0

/-- `scrapeProductsForDomain`: the sequential loop over the batch,
accumulating pushed records. -/
def scrapeProductsForDomain (tasks : List UrlTask) : List DomainResult :=
  tasks.foldl (fun results t => results ++ recordsForUrl t) []

/-! ### normalizeProductData (src/db/dataProcessor.js) -/

/-- `x || null` on a JS string: empty (falsy) becomes `null`. -/
def optOfStr (s : Str) : Option Str :=
  if s = [] then none else some s

/-- `new URL(u).hostname.replace("www.", "")`. -/
def hostWithoutWww (u : Str) : Str :=
  match suffixAfter u ("://".toList) with
  | none => []
  | some rest =>
    let host := rest.takeWhile (fun c => c ≠ '/' && c ≠ '?' && c ≠ '#' && c ≠ ':')
    replaceFirst host ("www.".toList)

/-- First match of `/\d+([.,]\d+)?/`: the first digit run, extended by a
single `.`/`,` separator and a further digit run when present. -/
def firstNumberMatch : Str → Option Str
  | [] => none
  | c :: rest =>
    if c.isDigit then
      let intRun := c :: rest.takeWhile Char.isDigit
      let after := rest.dropWhile Char.isDigit
      let frac :=
        match after with
        | sep :: after2 =>
          if sep = '.' || sep = ',' then
            let fr := after2.takeWhile Char.isDigit
            if fr = [] then [] else sep :: fr
          else []
        | [] => []
      some (intRun ++ frac)
    else firstNumberMatch rest

/-- `parseFloat(match.replace(",", "."))` on a `\d+([.,]\d+)?` match,
idealized over the exact decimal value. -/
def parsePriceRat (m : Str) : ℚ :=
  let intPart := m.takeWhile Char.isDigit
  let fracPart := (m.dropWhile Char.isDigit).drop 1
  mkRat (digitsToNat (intPart ++ fracPart)) (10 ^ fracPart.length)

/-- JS `toLowerCase` on the ASCII range. -/
def jsToLower (s : Str) : Str :=
  s.map Char.toLower

/-- The normalized row assembled by `normalizeProductData` (the wall-clock
`last_checked` column is omitted). -/
structure NormalizedProduct where
  site_id : Str
  platform : Str
  name : Str
  sku : Option Str
  url : Str
  image_url : Option Str
  description : Option Str
  specifications : Option Str
  brand : Option Str
  presentation : Option Str
  current_price : Option ℚ
  status : Str
  quantity : Option Nat
deriving DecidableEq, Repr

/-- `normalizeProductData`, field for field. -/
def normalizeProductData (pd : ProductData) : NormalizedProduct :=
  let site_id := if pd.site ≠ [] then pd.site else hostWithoutWww pd.url
  let current_price :=
    if pd.price ≠ [] && pd.price ≠ ("No disponible (Agotado)".toList) then
      match firstNumberMatch pd.price with
      | some m => some (parsePriceRat m)
      | none => none
    else none
  let status :=
    if pd.stock ≠ [] then
      let stockLower := jsToLower pd.stock
      if strContains stockLower ("en stock".toList) ||
          strContains stockLower ("disponible".toList) then
        "in_stock".toList
      else if strContains stockLower ("agotado".toList) ||
          strContains stockLower ("sin stock".toList) ||
          strContains stockLower ("no disponible".toList) then
        "out_of_stock".toList
      else "unknown".toList
    else "unknown".toList
  { site_id
    platform := pd.platform
    name := pd.name
    sku := optOfStr pd.sku
    url := pd.url
    image_url := optOfStr pd.image
    description := optOfStr pd.description
    specifications := pd.specifications
    brand := optOfStr pd.brand
    presentation := optOfStr pd.presentation
    current_price
    status
    quantity := match pd.quantity with | some 0 => none | q => q }

/-! ### processAndStoreProduct (src/db/dataProcessor.js)

The products and price_history tables are modeled as in-memory lists; the
category tables are treated below through the slug lists they hold. -/

/-- A stored products row: its id and the last written column values. -/
structure StoredProduct where
  id : Nat
  data : NormalizedProduct
deriving DecidableEq, Repr

/-- A price_history row as passed to `recordPriceHistory`. -/
structure PriceHistoryEntry where
  product_id : Nat
  price : Option ℚ
deriving DecidableEq, Repr

/-- The relevant store state. -/
structure Store where
  products : List StoredProduct
  priceHistory : List PriceHistoryEntry
  nextId : Nat
deriving DecidableEq, Repr

/-- The `site_id`/`url` key lookup (`UNIQUE(site_id, url)`). -/
def Store.findByKey (st : Store) (site_id url : Str) : Option StoredProduct :=
  st.products.find? (fun r => r.data.site_id = site_id && r.data.url = url)

/-- JS truthiness of the normalized price (`null` and `0` are falsy). -/
def truthyPrice : Option ℚ → Bool
  | none => false
  | some v => decide (v ≠ 0)

/-- `recordPriceHistory`: insert one row. -/
def recordPriceHistory (st : Store) (pid : Nat) (price : Option ℚ) : Store :=
  { st with priceHistory := st.priceHistory ++ [{ product_id := pid, price }] }

/-- `processAndStoreProduct` restricted to the products and price_history
tables: normalize, look up by key, update-or-insert, and append a price
history row under the source's two conditions. -/
def processAndStoreProduct (st : Store) (pd : ProductData) : Store :=
  let np := normalizeProductData pd
  match st.findByKey np.site_id np.url with
  | some existing =>
    let st' := { st with
      products := st.products.map (fun r => if r.id = existing.id then { r with data := np } else r) }
    if existing.data.current_price ≠ np.current_price then
      recordPriceHistory st' existing.id np.current_price
    else st'
  | none =>
    let newId := st.nextId
    let st' := { st with
      products := st.products ++ [{ id := newId, data := np }]
      nextId := st.nextId + 1 }
    if truthyPrice np.current_price then
      recordPriceHistory st' newId np.current_price
    else st'

/-! ### Category detection (src/db/dataProcessor.js)

`detectProductCategories` counts whole-word keyword occurrences with
`new RegExp("\\b" + keyword + "\\b", "gi")`; a JS `\b` boundary sits
wherever the word-character property changes (string ends count as
non-word).  The search text is lowercased by the caller and every rule
keyword is lowercase, so literal matching realizes the `i` flag here. -/

/-- Number of non-overlapping matches of `/\bkw\b/g` in the remaining
text, given the character just before it (`none` at the string start): a
match needs `kw` as a prefix with a JS word boundary on each side
(boundary = the word-character property changes; string ends are
non-word), and the scan then resumes past the match.  The fuel argument
only bounds the recursion; one character is consumed per step, so
`text.length + 1` fuel is always enough. -/
def countKwFrom (kw : Str) : Nat → Option Char → Str → Nat
  | 0, _, _ => 0
  | _ + 1, _, [] => 0
  | fuel + 1, prev, c :: rest =>
    if kw ≠ [] && kw.isPrefixOf (c :: rest) &&
        (wordCharOpt prev != wordCharOpt kw.head?) &&
        (wordCharOpt (kw.getLastD c) != wordCharOpt ((c :: rest).drop kw.length).head?) then
      1 + countKwFrom kw fuel (some (kw.getLastD c)) ((c :: rest).drop kw.length)
    else
      countKwFrom kw fuel (some c) rest

/-- Match count of one keyword over the whole search text. -/
def countMatches (text kw : Str) : Nat :=
  countKwFrom kw (text.length + 1) none text

/-- `score += matches` over a keyword list. -/
def keywordScore (text : Str) (keywords : List Str) : Nat :=
  (keywords.map (fun kw => countMatches text kw)).sum

/-- One subcategory rule of `CATEGORY_RULES`. -/
structure SubRule where
  key : Str
  subName : Str
  keywords : List Str
deriving DecidableEq, Repr

/-- One top-level category rule of `CATEGORY_RULES`. -/
structure CatRule where
  key : Str
  catName : Str
  keywords : List Str
  subcategories : List SubRule
deriving DecidableEq, Repr

/-- Helper for transcribing keyword lists. -/
def kws (l : List String) : List Str := l.map String.toList

/-- `DataProcessor.CATEGORY_RULES`, transcribed. -/
def CATEGORY_RULES : List CatRule :=
  [ { key := "orthodontics".toList, catName := "Ortodoncia".toList,
      keywords := kws ["bracket", "ortodoncia", "autoligado", "arco", "alambre", "retenedor",
        "alineador", "elástico", "banda", "tubo", "slot"],
      subcategories :=
        [ { key := "brackets".toList, subName := "Brackets".toList,
            keywords := kws ["bracket", "autoligado", "metalico", "ceramico", "zafiro", "slot",
              "roth", "mbt"] },
          { key := "wires".toList, subName := "Arcos y Alambres".toList,
            keywords := kws ["arco", "alambre", "niti", "acero", "beta", "titanio"] },
          { key := "elastics".toList, subName := "Elásticos".toList,
            keywords := kws ["elastico", "cadena", "ligadura", "power chain"] } ] },
    { key := "surgical".toList, catName := "Instrumental Quirúrgico".toList,
      keywords := kws ["forcep", "fórcep", "pinza", "tijera", "bisturí", "sutura", "elevador",
        "osteotomo", "cureta", "periostotomo"],
      subcategories :=
        [ { key := "forceps".toList, subName := "Fórceps".toList,
            keywords := kws ["forcep", "fórcep", "extracción"] },
          { key := "surgical-instruments".toList, subName := "Instrumental".toList,
            keywords := kws ["pinza", "tijera", "bisturí", "sutura", "elevador", "osteotomo"] } ] },
    { key := "restorative".toList, catName := "Materiales de Restauración".toList,
      keywords := kws ["resina", "composite", "ionomero", "cemento", "adhesivo", "ácido",
        "grabador", "amalgama"],
      subcategories :=
        [ { key := "composites".toList, subName := "Resinas y Composites".toList,
            keywords := kws ["resina", "composite", "bulk", "fluida", "nanohíbrida"] },
          { key := "cements".toList, subName := "Cementos".toList,
            keywords := kws ["cemento", "ionomero", "ionómero", "adhesivo", "provisional"] },
          { key := "acids".toList, subName := "Ácidos y Grabadores".toList,
            keywords := kws ["ácido", "acido", "grabador", "fosfórico", "fluorhídrico"] } ] },
    { key := "impression".toList, catName := "Materiales de Impresión".toList,
      keywords := kws ["alginato", "silicona", "impresión", "cubeta", "registro", "mordida"],
      subcategories :=
        [ { key := "alginates".toList, subName := "Alginatos".toList,
            keywords := kws ["alginato", "hidrocoloide"] },
          { key := "silicones".toList, subName := "Siliconas".toList,
            keywords := kws ["silicona", "polivinilsiloxano", "putty", "liviana", "pesada"] } ] },
    { key := "endodontics".toList, catName := "Endodoncia".toList,
      keywords := kws ["lima", "endodoncia", "gutapercha", "resilon", "sellador", "irrigación",
        "hipoclorito"],
      subcategories :=
        [ { key := "files".toList, subName := "Limas".toList,
            keywords := kws ["lima", "rotatorio", "reciprocante", "manual", "niti"] },
          { key := "obturation".toList, subName := "Obturación".toList,
            keywords := kws ["gutapercha", "resilon", "sellador", "cemento"] } ] },
    { key := "prevention".toList, catName := "Prevención e Higiene".toList,
      keywords := kws ["fluoruro", "sellante", "profilaxis", "cepillo", "pasta", "hilo dental"],
      subcategories :=
        [ { key := "fluorides".toList, subName := "Fluoruros".toList,
            keywords := kws ["fluoruro", "barniz", "gel"] },
          { key := "prophylaxis".toList, subName := "Profilaxis".toList,
            keywords := kws ["profilaxis", "pasta", "pulido", "cepillo"] } ] } ]

/-- The slug `detectProductCategories` records for a scoring subcategory:
`` `${categoryKey}_${subKey}` ``. -/
def detectedSubSlug (ckey skey : Str) : Str := ckey ++ '_' :: skey

/-- The slug `ensureCategories` creates for the same subcategory:
`` `${categoryKey}-${subKey}` ``. -/
def createdSubSlug (ckey skey : Str) : Str := ckey ++ '-' :: skey

/-- The search text of `detectProductCategories`: the truthy fields
joined with spaces and lowercased (`specifications` contributes its
serialized text, `""` when null). -/
def searchTextOf (nameF : Str) (description brand specsText : Option Str) : Str :=
  jsToLower (List.intercalate [' ']
    (([nameF, description.getD [], brand.getD [], specsText.getD []]).filter (fun s => s ≠ [])))

/-- The `(slug, score)` pairs accumulated by the two detection passes, in
map-insertion order: each positively scoring category followed by its
positively scoring subcategories. -/
def detectEntries (stxt : Str) : List (Str × Nat) :=
  CATEGORY_RULES.foldl
    (fun acc c =>
      let score := keywordScore stxt c.keywords
      if 0 < score then
        c.subcategories.foldl
          (fun acc2 sc =>
            let subScore := keywordScore stxt sc.keywords
            if 0 < subScore then acc2 ++ [(detectedSubSlug c.key sc.key, subScore)] else acc2)
          (acc ++ [(c.key, score)])
      else acc)
    []

/-- `detectProductCategories`: the sentinel `["others"]` when nothing
scores, else the slugs sorted by descending score (stable, as JS sort). -/
def detectProductCategories (nameF : Str) (description brand specsText : Option Str) :
    List Str :=
  let entries := detectEntries (searchTextOf nameF description brand specsText)
  if entries = [] then ["others".toList]
  else (entries.mergeSort (fun a b => b.2 ≤ a.2)).map Prod.fst

/-- The category slugs `ensureCategories` ensures exist in the store, in
creation order: per rule the main slug then its subcategory slugs, and
`"others"` last. -/
def ensuredCategorySlugs : List Str :=
  (CATEGORY_RULES.foldl
    (fun acc c =>
      (acc ++ [c.key]) ++ c.subcategories.map (fun sc => createdSubSlug c.key sc.key))
    []) ++ ["others".toList]

/-- Only the subcategory slugs `ensureCategories` creates. -/
def ensuredSubcategorySlugs : List Str :=
  CATEGORY_RULES.foldl
    (fun acc c => acc ++ c.subcategories.map (fun sc => createdSubSlug c.key sc.key)) []

/-- Every slug `detectProductCategories` can ever emit. -/
def detectableSlugs : List Str :=
  "others".toList ::
    CATEGORY_RULES.flatMap (fun c => c.key :: c.subcategories.map (fun sc => detectedSubSlug c.key sc.key))

/-! ## Theorems -/

/-! ### C2: counter resets in `adjust` -/

/-- C2 counterexample: an evaluation that runs to completion (window
elapsed, resources fine) with 3 accumulated errors and 7 successes takes
the no-change branch and does *not* reset both rolling counters: the
error counter survives with its old value. -/
theorem c2_counterexample :
    ¬ ((AdaptiveConcurrency.adjust true true
          { currentConcurrent := 4, maxConcurrent := 8, errorCount := 3, successCount := 7 }).errorCount = 0 ∧
       (AdaptiveConcurrency.adjust true true
          { currentConcurrent := 4, maxConcurrent := 8, errorCount := 3, successCount := 7 }).successCount = 0) := by
  decide

/-- C2 amended: on every completed evaluation the success counter is
reset to zero; the error counter is reset in the decrease branch, is
necessarily already zero whenever the increase branch is taken, and is
preserved unchanged in the no-change branch. -/
theorem c2_adjust_counter_resets (s : AdaptiveConcurrency) (rOK : Bool) :
    (AdaptiveConcurrency.adjust true rOK s).successCount = 0 ∧
    ((rOK = false ∨ 5 < s.errorCount) →
      (AdaptiveConcurrency.adjust true rOK s).errorCount = 0) ∧
    (¬(rOK = false ∨ 5 < s.errorCount) → s.errorCount = 0 →
      (AdaptiveConcurrency.adjust true rOK s).errorCount = 0) ∧
    (¬(rOK = false ∨ 5 < s.errorCount) → s.errorCount ≠ 0 →
      (AdaptiveConcurrency.adjust true rOK s).errorCount = s.errorCount) := by
  unfold AdaptiveConcurrency.adjust
  rw [if_neg (by simp : ¬(true = false))]
  by_cases hd : (rOK = false ∨ 5 < s.errorCount)
  · rw [if_pos hd]
    exact ⟨rfl, fun _ => rfl, fun h _ => absurd hd h, fun h _ => absurd hd h⟩
  · rw [if_neg hd]
    by_cases hi : (s.errorCount = 0 ∧ 10 < s.successCount ∧ rOK = true)
    · rw [if_pos hi]
      exact ⟨rfl, fun h => absurd h hd, fun _ _ => hi.1, fun _ h0 => absurd hi.1 h0⟩
    · rw [if_neg hi]
      exact ⟨rfl, fun h => absurd h hd, fun _ h0 => h0, fun _ _ => rfl⟩

/-- C2 witness: concrete instances of each hypothesis-guarded part of
`c2_adjust_counter_resets`. -/
theorem c2_adjust_counter_resets_witness :
    (AdaptiveConcurrency.adjust true false
      { currentConcurrent := 4, maxConcurrent := 8, errorCount := 2, successCount := 1 }).errorCount = 0 ∧
    (AdaptiveConcurrency.adjust true true
      { currentConcurrent := 4, maxConcurrent := 8, errorCount := 3, successCount := 7 }).errorCount = 3 := by
  constructor
  · exact (c2_adjust_counter_resets
      { currentConcurrent := 4, maxConcurrent := 8, errorCount := 2, successCount := 1 } false).2.1
      (Or.inl rfl)
  · exact (c2_adjust_counter_resets
      { currentConcurrent := 4, maxConcurrent := 8, errorCount := 3, successCount := 7 } true).2.2.2
      (by simp) (by simp)

/-! ### C7: the concurrency bound stays in [2, 8] -/

/-- The inductive invariant of the governor state. -/
def boundInv (s : AdaptiveConcurrency) : Prop :=
  2 ≤ s.currentConcurrent ∧ s.currentConcurrent ≤ 8 ∧ s.maxConcurrent = 8

theorem adjust_boundInv (el rOK : Bool) (s : AdaptiveConcurrency) (h : boundInv s) :
    boundInv (AdaptiveConcurrency.adjust el rOK s) := by
  obtain ⟨h1, h2, h3⟩ := h
  unfold AdaptiveConcurrency.adjust
  by_cases he : el = false
  · rw [if_pos he]
    exact ⟨h1, h2, h3⟩
  · rw [if_neg he]
    by_cases hd : (rOK = false ∨ 5 < s.errorCount)
    · rw [if_pos hd]
      refine ⟨?_, ?_, h3⟩
      · show 2 ≤ max 2 (s.currentConcurrent - 1)
        omega
      · show max 2 (s.currentConcurrent - 1) ≤ 8
        omega
    · rw [if_neg hd]
      by_cases hi : (s.errorCount = 0 ∧ 10 < s.successCount ∧ rOK = true)
      · rw [if_pos hi]
        refine ⟨?_, ?_, h3⟩
        · show 2 ≤ min s.maxConcurrent (s.currentConcurrent + 1)
          rw [h3]
          omega
        · show min s.maxConcurrent (s.currentConcurrent + 1) ≤ 8
          rw [h3]
          omega
      · rw [if_neg hi]
        exact ⟨h1, h2, h3⟩

theorem adjust_change_le_one (el rOK : Bool) (s : AdaptiveConcurrency) (h : boundInv s) :
    (AdaptiveConcurrency.adjust el rOK s).currentConcurrent ≤ s.currentConcurrent + 1 ∧
    s.currentConcurrent ≤ (AdaptiveConcurrency.adjust el rOK s).currentConcurrent + 1 := by
  obtain ⟨h1, h2, h3⟩ := h
  unfold AdaptiveConcurrency.adjust
  by_cases he : el = false
  · rw [if_pos he]
    omega
  · rw [if_neg he]
    by_cases hd : (rOK = false ∨ 5 < s.errorCount)
    · rw [if_pos hd]
      constructor
      · show max 2 (s.currentConcurrent - 1) ≤ s.currentConcurrent + 1
        omega
      · show s.currentConcurrent ≤ max 2 (s.currentConcurrent - 1) + 1
        omega
    · rw [if_neg hd]
      by_cases hi : (s.errorCount = 0 ∧ 10 < s.successCount ∧ rOK = true)
      · rw [if_pos hi]
        constructor
        · show min s.maxConcurrent (s.currentConcurrent + 1) ≤ s.currentConcurrent + 1
          rw [h3]
          omega
        · show s.currentConcurrent ≤ min s.maxConcurrent (s.currentConcurrent + 1) + 1
          rw [h3]
          omega
      · rw [if_neg hi]
        constructor
        · show s.currentConcurrent ≤ s.currentConcurrent + 1
          omega
        · show s.currentConcurrent ≤ s.currentConcurrent + 1
          omega

theorem step_boundInv (e : ConcurrencyEvent) (s : AdaptiveConcurrency) (h : boundInv s) :
    boundInv (AdaptiveConcurrency.step e s) := by
  unfold AdaptiveConcurrency.step AdaptiveConcurrency.recordError AdaptiveConcurrency.recordSuccess
  obtain ⟨h1, h2, h3⟩ := h
  split <;> exact adjust_boundInv _ _ _ ⟨h1, h2, h3⟩

theorem run_boundInv (evs : List ConcurrencyEvent) (s : AdaptiveConcurrency) (h : boundInv s) :
    boundInv (AdaptiveConcurrency.run evs s) := by
  induction evs generalizing s with
  | nil => exact h
  | cons e rest ih => exact ih _ (step_boundInv e s h)

/-- C7: starting from the initial bound 4 (ceiling 8, floor 2), after any
sequence of recorded completions the bound lies in [2, 8], and one further
event moves it by at most 1 in either direction. -/
theorem c7_bound_always_in_range (evs : List ConcurrencyEvent) :
    2 ≤ (AdaptiveConcurrency.run evs AdaptiveConcurrency.init).currentConcurrent ∧
    (AdaptiveConcurrency.run evs AdaptiveConcurrency.init).currentConcurrent ≤ 8 ∧
    ∀ e : ConcurrencyEvent,
      (AdaptiveConcurrency.step e (AdaptiveConcurrency.run evs AdaptiveConcurrency.init)).currentConcurrent ≤
        (AdaptiveConcurrency.run evs AdaptiveConcurrency.init).currentConcurrent + 1 ∧
      (AdaptiveConcurrency.run evs AdaptiveConcurrency.init).currentConcurrent ≤
        (AdaptiveConcurrency.step e (AdaptiveConcurrency.run evs AdaptiveConcurrency.init)).currentConcurrent + 1 := by
  have hinv : boundInv (AdaptiveConcurrency.run evs AdaptiveConcurrency.init) :=
    run_boundInv evs AdaptiveConcurrency.init (by constructor <;> simp [AdaptiveConcurrency.init])
  refine ⟨hinv.1, hinv.2.1, ?_⟩
  intro e
  unfold AdaptiveConcurrency.step AdaptiveConcurrency.recordError AdaptiveConcurrency.recordSuccess
  have h1 := hinv.1
  have h2 := hinv.2.1
  have h3 := hinv.2.2
  split
  · exact adjust_change_le_one _ _ _ ⟨h1, h2, h3⟩
  · exact adjust_change_le_one _ _ _ ⟨h1, h2, h3⟩

/-! ### C3: idempotence of cleanPrice -/

theorem replaceFirst_of_not_contains (t pat : Str) (h : strContains t pat = false) :
    replaceFirst t pat = t := by
  induction t with
  | nil => rfl
  | cons c rest ih =>
    unfold strContains at h
    simp only [Bool.or_eq_false_iff] at h
    unfold replaceFirst
    rw [if_neg (by simp [h.1])]
    rw [ih h.2]

theorem collapseDollarWs_of_not_hasDollarWs (t : Str) (h : hasDollarWs t = false) :
    collapseDollarWs t = t := by
  induction t with
  | nil => rfl
  | cons c rest ih =>
    unfold hasDollarWs at h
    simp only [Bool.or_eq_false_iff, Bool.and_eq_false_iff] at h
    unfold collapseDollarWs
    rw [if_neg (by simp [Bool.and_eq_true]; intro hc; rcases h.1 with h' | h'; exact absurd hc (by simpa using h'); simpa using h')]
    rw [ih h.2]

theorem cleanForm_fixed (t : Str) (h : cleanForm t = true) : cleanPrice t = t := by
  unfold cleanForm at h
  by_cases ht : t = []
  · rw [ht]
    rfl
  · rw [Bool.or_eq_true] at h
    rcases h with h | h
    · exact absurd (by simpa using h) ht
    · simp only [Bool.and_eq_true, decide_eq_true_eq, Bool.not_eq_true'] at h
      obtain ⟨⟨⟨⟨⟨htrim, hnl⟩, hpw⟩, hp⟩, hdol⟩, hdw⟩ := h
      unfold cleanPrice
      rw [if_neg ht]
      simp only [hnl, Bool.false_eq_true, if_false, htrim,
        replaceFirst_of_not_contains _ _ hpw, replaceFirst_of_not_contains _ _ hp,
        hdol, if_true]
      exact collapseDollarWs_of_not_hasDollarWs t hdw

/-- C3 counterexample: `cleanPrice` removes only the first label
occurrence, so on `"Precio:Precio:1"` (which cleans to `"$Precio:1"`) a
second application still changes the string. -/
theorem c3_counterexample :
    cleanPrice (cleanPrice ("Precio:Precio:1".toList)) ≠
      cleanPrice ("Precio:Precio:1".toList) := by
  decide

/-- C3 amended: `cleanPrice` is idempotent at every input whose cleaned
form is fully cleaned — trimmed, newline-free, free of the `"Precio:"`
and `"Precio web:"` labels, containing `$`, and with no `$`-whitespace
gap (or empty).  The unrestricted claim fails when a label or a second
`$`-whitespace gap survives the first pass. -/
theorem c3_cleanPrice_idem (s : Str) (h : cleanForm (cleanPrice s) = true) :
    cleanPrice (cleanPrice s) = cleanPrice s :=
  cleanForm_fixed (cleanPrice s) h

/-- C3 witness: a representative price string whose cleaned form is fully
cleaned, so cleaning it twice equals cleaning it once. -/
theorem c3_cleanPrice_idem_witness :
    cleanForm (cleanPrice ("Precio web: $ 1.234".toList)) = true ∧
    cleanPrice (cleanPrice ("Precio web: $ 1.234".toList)) =
      cleanPrice ("Precio web: $ 1.234".toList) :=
  ⟨by decide, c3_cleanPrice_idem ("Precio web: $ 1.234".toList) (by decide)⟩

/-! ### C4: the product-page classifier -/

theorem cond_eq_mul_toNat (b : Bool) (w : Nat) : (cond b w 0) = w * b.toNat := by
  cases b <;> simp

/-- C4: the classifier is a pure function of the fixed signal vector; its
score is exactly the weighted sum the specification lists, and the page
is classified as a product page iff that sum is at least 3. -/
theorem c4_classifier_score (p : PageSignals) :
    productScore p = claimedScore p ∧ (isProductPage p = true ↔ 3 ≤ productScore p) := by
  constructor
  · unfold productScore claimedScore
    simp only [cond_eq_mul_toNat]
    omega
  · unfold isProductPage
    exact decide_eq_true_iff

/-! ### C5: exactly one record per URL -/

theorem foldl_push_eq_flatMap {α β : Type} (g : β → List α) (l : List β) (acc : List α) :
    l.foldl (fun a x => a ++ g x) acc = acc ++ l.flatMap g := by
  induction l generalizing acc with
  | nil => simp
  | cons x xs ih => simp [ih, List.append_assoc]

theorem attemptLoop_one (t : UrlTask) (k rc : Nat) (hk : maxRetries + 1 ≤ rc + k)
    (hrc : rc ≤ maxRetries) : ∃ r, attemptLoop t rc = [r] := by
  induction k generalizing rc with
  | zero => omega
  | succ k ih =>
    rw [attemptLoop]
    rw [if_pos hrc]
    cases ho : t.attempts rc with
    | notProduct => exact ⟨_, rfl⟩
    | productOk d => exact ⟨_, rfl⟩
    | thrown msg =>
      show ∃ r,
        (if rc + 1 > maxRetries then [DomainResult.failed t.url msg]
         else attemptLoop t (rc + 1)) = [r]
      by_cases hlast : rc + 1 > maxRetries
      · rw [if_pos hlast]
        exact ⟨_, rfl⟩
      · rw [if_neg hlast]
        exact ih (rc + 1) (by omega) (by omega)

theorem recordsForUrl_one (t : UrlTask) : ∃ r, recordsForUrl t = [r] := by
  unfold recordsForUrl
  by_cases hd : directDeny t.url = true
  · rw [if_pos hd]
    exact ⟨_, rfl⟩
  · rw [if_neg hd]
    exact attemptLoop_one t (maxRetries + 1) 0 (by omega) (by omega)

/-- C5: a domain session produces exactly one record per input URL — the
deny-list short-circuit, the retry loop's success or non-product record,
or the terminal error record — so the result length equals the input
length. -/
theorem c5_one_record_per_url (tasks : List UrlTask) :
    (scrapeProductsForDomain tasks).length = tasks.length ∧
    ∀ t : UrlTask, ∃ r, recordsForUrl t = [r] := by
  constructor
  · unfold scrapeProductsForDomain
    rw [foldl_push_eq_flatMap]
    simp only [List.nil_append]
    induction tasks with
    | nil => rfl
    | cons t ts ih =>
      obtain ⟨r, hr⟩ := recordsForUrl_one t
      simp [hr, ih]
  · exact recordsForUrl_one

/-! ### C8: the JumpSeller sitemap heuristic -/

/-- The per-item contribution of the `processJumpSellerSitemap` loop. -/
def jsKeep (info : SitemapInfo) (item : SitemapUrlItem) : List UrlEntry :=
  if jumpSellerDeny info.site item.loc then []
  else if isLikelyProductUrl item.loc then [mkUrlEntry info item]
  else []

theorem processJumpSellerSitemap_eq (info : SitemapInfo) (items : List SitemapUrlItem) :
    processJumpSellerSitemap info items = items.flatMap (jsKeep info) := by
  unfold processJumpSellerSitemap
  have hf : (fun (acc : List UrlEntry) item =>
      if jumpSellerDeny info.site item.loc then acc
      else if isLikelyProductUrl item.loc then acc ++ [mkUrlEntry info item]
      else acc) = (fun acc item => acc ++ jsKeep info item) := by
    funext acc item
    unfold jsKeep
    split
    · simp
    · split <;> simp
  rw [hf, foldl_push_eq_flatMap]
  simp

theorem mkUrlEntry_inj (info : SitemapInfo) (i j : SitemapUrlItem)
    (h : mkUrlEntry info i = mkUrlEntry info j) : i = j := by
  unfold mkUrlEntry at h
  cases i
  cases j
  simp only [UrlEntry.mk.injEq] at h
  simp [h.1, h.2.2.2]

theorem likely_eq_spec (u : Str) : isLikelyProductUrl u = specLikelyProduct u := by
  unfold isLikelyProductUrl specLikelyProduct
  have hfilter : (splitOnChar '/' (pathnameOf u)).filter (fun seg => seg.length > 0) =
      (splitOnChar '/' (pathnameOf u)).filter (fun seg => seg ≠ []) := by
    apply List.filter_congr
    intro seg _
    cases seg <;> simp
  simp only [hfilter, ge_iff_le]

/-- C8: among sitemap URLs that survive the static deny-list, exactly
those whose path has at least two non-empty segments, or contains a
hyphen, or contains a digit, are retained by the JumpSeller strategy. -/
theorem c8_jumpseller_heuristic (info : SitemapInfo) (items : List SitemapUrlItem)
    (item : SitemapUrlItem) (hmem : item ∈ items)
    (hdeny : jumpSellerDeny info.site item.loc = false) :
    mkUrlEntry info item ∈ processJumpSellerSitemap info items ↔
      specLikelyProduct item.loc = true := by
  rw [processJumpSellerSitemap_eq]
  rw [List.mem_flatMap]
  constructor
  · rintro ⟨i, hi, hkeep⟩
    unfold jsKeep at hkeep
    by_cases hd : jumpSellerDeny info.site i.loc = true
    · rw [if_pos hd] at hkeep
      exact absurd hkeep (List.not_mem_nil _)
    · rw [if_neg hd] at hkeep
      by_cases hl : isLikelyProductUrl i.loc = true
      · rw [if_pos hl] at hkeep
        have heq := List.mem_singleton.mp hkeep
        have hii : item = i := mkUrlEntry_inj info item i heq
        rw [← likely_eq_spec, hii]
        exact hl
      · rw [if_neg hl] at hkeep
        exact absurd hkeep (List.not_mem_nil _)
  · intro hspec
    refine ⟨item, hmem, ?_⟩
    unfold jsKeep
    rw [if_neg (by simp [hdeny])]
    rw [if_pos (by rw [likely_eq_spec]; exact hspec)]
    exact List.mem_singleton.mpr rfl

/-- Concrete JumpSeller sitemap descriptor for the witness. -/
def damusInfo : SitemapInfo :=
  { site := "damus".toList, platform := "jumpseller".toList }

/-- Concrete surviving sitemap item for the witness. -/
def damusItem : SitemapUrlItem :=
  { loc := "https://www.damus.cl/producto-ejemplo".toList, lastmod := none }

/-- C8 witness: a URL surviving the deny-list whose hyphenated path makes
it a likely product URL, hence retained. -/
theorem c8_jumpseller_heuristic_witness :
    mkUrlEntry damusInfo damusItem ∈ processJumpSellerSitemap damusInfo [damusItem] :=
  (c8_jumpseller_heuristic damusInfo [damusItem] damusItem (by decide) (by decide)).mpr
    (by decide)

/-! ### C1: stock-status precedence in extractStockInfo -/

/-- A sold-out phrase occurs in the body text. -/
def soldOutSignal (body : Str) : Bool :=
  agotadoTexts.any (fun t => strContains body t)

/-- An in-stock phrase occurs in the body text. -/
def inStockSignal (body : Str) : Bool :=
  disponibleTexts.any (fun t => strContains body t)

/-- The platform stock block exists and carries a label (the early-return
case). -/
def damusLabelled (page : StockPage) : Bool :=
  match page.damusStockLabel with
  | some (some _) => true
  | _ => false

theorem find?_eq_none_of_any_false {α : Type} (p : α → Bool) (l : List α)
    (h : l.any p = false) : l.find? p = none := by
  rw [List.find?_eq_none]
  intro x hx hpx
  have : l.any p = true := List.any_eq_true.mpr ⟨x, hx, hpx⟩
  rw [h] at this
  exact Bool.false_ne_true this

theorem find?_exists_of_any_true {α : Type} (p : α → Bool) (l : List α)
    (h : l.any p = true) : ∃ x, l.find? p = some x := by
  cases hf : l.find? p with
  | some x => exact ⟨x, rfl⟩
  | none =>
    rw [List.find?_eq_none] at hf
    rw [List.any_eq_true] at h
    obtain ⟨x, hx, hpx⟩ := h
    exact absurd hpx (hf x hx)

theorem damus_shape (page : StockPage) (hd : damusLabelled page = false) :
    page.damusStockLabel = none ∨ page.damusStockLabel = some none := by
  unfold damusLabelled at hd
  match h : page.damusStockLabel with
  | none => exact Or.inl rfl
  | some none => exact Or.inr rfl
  | some (some lbl) => rw [h] at hd; exact absurd hd (by simp)

/-- C1 counterexample: a page whose body text carries the sold-out phrase
`"Agotado"` together with an in-stock phrase resolves to `"En stock"`,
with a quantity, because the in-stock body scan runs after — and
overwrites — the sold-out scan.  The claim says the sold-out signal should
win and the quantity be discarded. -/
def c1Page : StockPage where
  damusStockLabel := none
  selectorText := fun _ => none
  addToCartDisabled := none
  bodyText := "Producto Agotado ... En stock 5 unidades".toList
  elementTextContaining := fun _ => some "En stock 5 unidades".toList

theorem c1_counterexample :
    strContains c1Page.bodyText ("Agotado".toList) = true ∧
    extractStockInfo defaultStockSelectors c1Page =
      { status := "En stock".toList, quantity := some 5 } := by
  constructor
  · decide
  · decide

/-- C1 amended: the body scans run with the in-stock scan last, so (i) a
sold-out phrase forces status `"Agotado"` with the quantity discarded only
when no in-stock phrase is present; (ii) an in-stock phrase forces status
`"En stock"` even when a sold-out phrase, selector text or a disabled
purchase control is also present; (iii) the disabled purchase control
forces `"Agotado"` only when neither body scan fires; (iv) with no signal
at all the default `"Desconocido"` remains.  The labeled platform stock
block, when present, takes priority over everything. -/
theorem extract_soldOut_only (sels : List Str) (page : StockPage)
    (hd : damusLabelled page = false)
    (hso : soldOutSignal page.bodyText = true) (hins : inStockSignal page.bodyText = false) :
    extractStockInfo sels page = { status := "Agotado".toList, quantity := none } := by
  unfold soldOutSignal at hso
  unfold inStockSignal at hins
  obtain ⟨ta, hta⟩ := find?_exists_of_any_true _ _ hso
  have hfd := find?_eq_none_of_any_false _ _ hins
  unfold extractStockInfo
  rcases damus_shape page hd with h | h <;> rw [h] <;> dsimp only <;> rw [hta, hfd]

theorem extract_inStock_last (sels : List Str) (page : StockPage)
    (hd : damusLabelled page = false) (hins : inStockSignal page.bodyText = true) :
    (extractStockInfo sels page).status = "En stock".toList := by
  unfold inStockSignal at hins
  obtain ⟨td, htd⟩ := find?_exists_of_any_true _ _ hins
  unfold extractStockInfo
  rcases damus_shape page hd with h | h <;> rw [h] <;> dsimp only <;> rw [htd] <;>
    dsimp only <;> cases page.elementTextContaining td <;> rfl

theorem extract_disabled_control (sels : List Str) (page : StockPage)
    (hd : damusLabelled page = false)
    (hso : soldOutSignal page.bodyText = false) (hins : inStockSignal page.bodyText = false)
    (hbtn : page.addToCartDisabled = some true) :
    (extractStockInfo sels page).status = "Agotado".toList := by
  unfold soldOutSignal at hso
  unfold inStockSignal at hins
  have hfa := find?_eq_none_of_any_false _ _ hso
  have hfd := find?_eq_none_of_any_false _ _ hins
  unfold extractStockInfo
  rcases damus_shape page hd with h | h <;> rw [h] <;> dsimp only <;> rw [hfa, hfd] <;>
    dsimp only <;> rw [if_pos hbtn]

theorem extract_default_unknown (sels : List Str) (page : StockPage)
    (hd : damusLabelled page = false)
    (hso : soldOutSignal page.bodyText = false) (hins : inStockSignal page.bodyText = false)
    (hbtn : page.addToCartDisabled ≠ some true)
    (hsel : List.findSome? page.selectorText sels = none) :
    extractStockInfo sels page = { status := "Desconocido".toList, quantity := none } := by
  unfold soldOutSignal at hso
  unfold inStockSignal at hins
  have hfa := find?_eq_none_of_any_false _ _ hso
  have hfd := find?_eq_none_of_any_false _ _ hins
  unfold extractStockInfo
  rcases damus_shape page hd with h | h <;> rw [h] <;> dsimp only <;> rw [hfa, hfd, hsel] <;>
    dsimp only <;> rw [if_neg hbtn]

theorem c1_stock_precedence (sels : List Str) (page : StockPage)
    (hd : damusLabelled page = false) :
    (soldOutSignal page.bodyText = true → inStockSignal page.bodyText = false →
      extractStockInfo sels page = { status := "Agotado".toList, quantity := none }) ∧
    (inStockSignal page.bodyText = true →
      (extractStockInfo sels page).status = "En stock".toList) ∧
    (soldOutSignal page.bodyText = false → inStockSignal page.bodyText = false →
      page.addToCartDisabled = some true →
      (extractStockInfo sels page).status = "Agotado".toList) ∧
    (soldOutSignal page.bodyText = false → inStockSignal page.bodyText = false →
      page.addToCartDisabled ≠ some true → List.findSome? page.selectorText sels = none →
      extractStockInfo sels page = { status := "Desconocido".toList, quantity := none }) :=
  ⟨fun hso hins => extract_soldOut_only sels page hd hso hins,
   fun hins => extract_inStock_last sels page hd hins,
   fun hso hins hbtn => extract_disabled_control sels page hd hso hins hbtn,
   fun hso hins hbtn hsel => extract_default_unknown sels page hd hso hins hbtn hsel⟩

/-- Page with only a sold-out body phrase, for the C1 witness. -/
def c1WitnessPage : StockPage where
  damusStockLabel := none
  selectorText := fun _ => none
  addToCartDisabled := none
  bodyText := "Producto Agotado 3".toList
  elementTextContaining := fun _ => none

/-- C1 witness: with a sold-out phrase and no in-stock phrase, the status
is `"Agotado"` and the quantity is discarded. -/
theorem c1_stock_precedence_witness :
    extractStockInfo defaultStockSelectors c1WitnessPage =
      { status := "Agotado".toList, quantity := none } :=
  (c1_stock_precedence defaultStockSelectors c1WitnessPage (by decide)).1
    (by decide) (by decide)

/-! ### C6: price-history appends in processAndStoreProduct -/

/-- C6 amended: for an already-stored product a price-history row is
appended iff the newly normalized price differs from the stored current
price; for a first-seen product the initial price is recorded iff it is
truthy (non-null and non-zero). -/
theorem c6_price_history (st : Store) (pd : ProductData) :
    (∀ existing,
      st.findByKey (normalizeProductData pd).site_id (normalizeProductData pd).url =
        some existing →
      (processAndStoreProduct st pd).priceHistory =
        st.priceHistory ++
          (if existing.data.current_price ≠ (normalizeProductData pd).current_price then
            [{ product_id := existing.id, price := (normalizeProductData pd).current_price }]
          else [])) ∧
    (st.findByKey (normalizeProductData pd).site_id (normalizeProductData pd).url = none →
      (processAndStoreProduct st pd).priceHistory =
        st.priceHistory ++
          (if truthyPrice (normalizeProductData pd).current_price = true then
            [{ product_id := st.nextId, price := (normalizeProductData pd).current_price }]
          else [])) := by
  constructor
  · intro existing hex
    unfold processAndStoreProduct
    dsimp only
    rw [hex]
    dsimp only
    by_cases hne : existing.data.current_price ≠ (normalizeProductData pd).current_price
    · rw [if_pos hne, if_pos hne]
      rfl
    · rw [if_neg hne, if_neg hne]
      simp
  · intro hnone
    unfold processAndStoreProduct
    dsimp only
    rw [hnone]
    dsimp only
    by_cases ht : truthyPrice (normalizeProductData pd).current_price = true
    · rw [if_pos ht, if_pos ht]
      rfl
    · rw [if_neg ht, if_neg ht]
      simp

/-- The empty store state. -/
def emptyStore : Store := { products := [], priceHistory := [], nextId := 0 }

/-- A product whose extracted price is the `"$0"` sentinel (normalized
price `0`, which JS treats as falsy). -/
def c6ZeroProduct : ProductData where
  name := "Producto".toList
  price := "$0".toList
  stock := "En stock".toList
  quantity := none
  link := "https://www.damus.cl/x".toList
  url := "https://www.damus.cl/x".toList
  image := []
  site := "damus".toList
  platform := "jumpseller".toList
  sku := []
  brand := []
  presentation := []
  description := []
  specifications := none

/-- C6 counterexample: a product seen for the first time whose normalized
price is present (`some 0`) gets *no* initial price-history row, because
`if (normalizedProduct.current_price)` treats 0 as falsy.  The claim says
a first-seen product has its initial price recorded. -/
theorem c6_counterexample :
    (normalizeProductData c6ZeroProduct).current_price = some 0 ∧
    emptyStore.findByKey (normalizeProductData c6ZeroProduct).site_id
      (normalizeProductData c6ZeroProduct).url = none ∧
    (processAndStoreProduct emptyStore c6ZeroProduct).priceHistory = [] := by
  refine ⟨by decide, by decide, by decide⟩

/-- The same product observed at price `$100`. -/
def c6HundredProduct : ProductData := { c6ZeroProduct with price := "$100".toList }

/-- The same product observed at price `$200`. -/
def c6TwoHundredProduct : ProductData := { c6ZeroProduct with price := "$200".toList }

/-- A store already holding the product at price 100 under id 7. -/
def c6StoredStore : Store where
  products := [{ id := 7, data := normalizeProductData c6HundredProduct }]
  priceHistory := [{ product_id := 7, price := some 100 }]
  nextId := 8

/-- C6 witness: re-processing the stored product at a changed price
appends exactly one price-history row for it. -/
theorem c6_price_history_witness :
    (processAndStoreProduct c6StoredStore c6TwoHundredProduct).priceHistory =
      c6StoredStore.priceHistory ++
        [{ product_id := 7, price := (normalizeProductData c6TwoHundredProduct).current_price }] := by
  have h := (c6_price_history c6StoredStore c6TwoHundredProduct).1
    { id := 7, data := normalizeProductData c6HundredProduct } (by decide)
  rw [h]
  rw [if_pos (by decide)]

/-! ### C10: a quantity of zero is not preserved -/

/-- A page whose stock selector text carries the quantity 0, showing the
extractor can produce `quantity = some 0`. -/
def c10ZeroQtyPage : StockPage where
  damusStockLabel := none
  selectorText := fun s => if s = ".stock".toList then some " Stock: 0 unidades ".toList else none
  addToCartDisabled := none
  bodyText := []
  elementTextContaining := fun _ => none

/-- C10: `normalizeProductData` maps an extracted quantity of 0 to null
(`quantity: productData.quantity || null`), while quantities 1..9999 are
preserved unchanged; and the stock extractor can indeed produce a zero
quantity. -/
theorem c10_zero_quantity_dropped (pd : ProductData) :
    (pd.quantity = some 0 → (normalizeProductData pd).quantity = none) ∧
    (∀ n : Nat, 1 ≤ n → n ≤ 9999 → pd.quantity = some n →
      (normalizeProductData pd).quantity = some n) ∧
    (extractStockInfo defaultStockSelectors c10ZeroQtyPage).quantity = some 0 := by
  refine ⟨?_, ?_, by decide⟩
  · intro h
    unfold normalizeProductData
    dsimp only
    rw [h]
  · intro n h1 h2 h
    unfold normalizeProductData
    dsimp only
    rw [h]
    match n, h1 with
    | n + 1, _ => rfl

/-- Product records with quantities 0 and 5 for the C10 witness. -/
def c10ZeroProduct : ProductData := { c6ZeroProduct with quantity := some 0 }

/-- See `c10ZeroProduct`. -/
def c10FiveProduct : ProductData := { c6ZeroProduct with quantity := some 5 }

/-- C10 witness: quantity 0 becomes null; quantity 5 is preserved. -/
theorem c10_zero_quantity_dropped_witness :
    (normalizeProductData c10ZeroProduct).quantity = none ∧
    (normalizeProductData c10FiveProduct).quantity = some 5 :=
  ⟨(c10_zero_quantity_dropped c10ZeroProduct).1 rfl,
   (c10_zero_quantity_dropped c10FiveProduct).2.1 5 (by decide) (by decide) rfl⟩

/-! ### C9: detected vs created subcategory slugs -/

/-- The entry a subcategory contributes to the detection pass. -/
def subEntry (stxt : Str) (ckey : Str) (sc : SubRule) : List (Str × Nat) :=
  if 0 < keywordScore stxt sc.keywords then
    [(detectedSubSlug ckey sc.key, keywordScore stxt sc.keywords)]
  else []

/-- The entries one category rule contributes to the detection pass. -/
def entriesFor (stxt : Str) (c : CatRule) : List (Str × Nat) :=
  if 0 < keywordScore stxt c.keywords then
    (c.key, keywordScore stxt c.keywords) :: c.subcategories.flatMap (subEntry stxt c.key)
  else []

theorem detectEntries_eq (stxt : Str) :
    detectEntries stxt = CATEGORY_RULES.flatMap (entriesFor stxt) := by
  unfold detectEntries
  have hinner : ∀ (ckey : Str) (subs : List SubRule) (acc : List (Str × Nat)),
      subs.foldl
        (fun acc2 sc =>
          if 0 < keywordScore stxt sc.keywords then
            acc2 ++ [(detectedSubSlug ckey sc.key, keywordScore stxt sc.keywords)]
          else acc2) acc
      = acc ++ subs.flatMap (subEntry stxt ckey) := by
    intro ckey subs acc
    have hf : (fun (acc2 : List (Str × Nat)) sc =>
        if 0 < keywordScore stxt sc.keywords then
          acc2 ++ [(detectedSubSlug ckey sc.key, keywordScore stxt sc.keywords)]
        else acc2) = fun acc2 sc => acc2 ++ subEntry stxt ckey sc := by
      funext acc2 sc
      unfold subEntry
      split <;> simp
    rw [hf, foldl_push_eq_flatMap]
  have houter : (fun (acc : List (Str × Nat)) c =>
      if 0 < keywordScore stxt c.keywords then
        c.subcategories.foldl
          (fun acc2 sc =>
            if 0 < keywordScore stxt sc.keywords then
              acc2 ++ [(detectedSubSlug c.key sc.key, keywordScore stxt sc.keywords)]
            else acc2)
          (acc ++ [(c.key, keywordScore stxt c.keywords)])
      else acc) = fun acc c => acc ++ entriesFor stxt c := by
    funext acc c
    unfold entriesFor
    split
    · rw [hinner]
      simp
    · simp
  dsimp only
  rw [houter, foldl_push_eq_flatMap]
  simp

theorem sub_slug_mem_detectEntries (stxt : Str) (c : CatRule) (sc : SubRule)
    (hc : c ∈ CATEGORY_RULES) (hs : sc ∈ c.subcategories)
    (hmain : 0 < keywordScore stxt c.keywords) (hsub : 0 < keywordScore stxt sc.keywords) :
    (detectedSubSlug c.key sc.key, keywordScore stxt sc.keywords) ∈ detectEntries stxt := by
  rw [detectEntries_eq, List.mem_flatMap]
  refine ⟨c, hc, ?_⟩
  unfold entriesFor
  rw [if_pos hmain]
  refine List.mem_cons_of_mem _ ?_
  rw [List.mem_flatMap]
  refine ⟨sc, hs, ?_⟩
  unfold subEntry
  rw [if_pos hsub]
  exact List.mem_singleton.mpr rfl

theorem detectEntries_shape (stxt : Str) (e : Str × Nat) (he : e ∈ detectEntries stxt) :
    ∃ c ∈ CATEGORY_RULES,
      e.1 = c.key ∨ ∃ sc ∈ c.subcategories, e.1 = detectedSubSlug c.key sc.key := by
  rw [detectEntries_eq, List.mem_flatMap] at he
  obtain ⟨c, hc, hec⟩ := he
  refine ⟨c, hc, ?_⟩
  unfold entriesFor at hec
  by_cases hp : 0 < keywordScore stxt c.keywords
  · rw [if_pos hp] at hec
    rcases List.mem_cons.mp hec with h | h
    · exact Or.inl (by rw [h])
    · rw [List.mem_flatMap] at h
      obtain ⟨sc, hsc, hee⟩ := h
      unfold subEntry at hee
      by_cases hq : 0 < keywordScore stxt sc.keywords
      · rw [if_pos hq] at hee
        exact Or.inr ⟨sc, hsc, by rw [List.mem_singleton.mp hee]⟩
      · rw [if_neg hq] at hee
        exact absurd hee (List.not_mem_nil _)
  · rw [if_neg hp] at hec
    exact absurd hec (List.not_mem_nil _)

theorem ensuredCategorySlugs_eq :
    ensuredCategorySlugs =
      (CATEGORY_RULES.flatMap
        (fun c => c.key :: c.subcategories.map (fun sc => createdSubSlug c.key sc.key))) ++
        ["others".toList] := by
  unfold ensuredCategorySlugs
  have hf : (fun (acc : List Str) (c : CatRule) =>
      (acc ++ [c.key]) ++ c.subcategories.map (fun sc => createdSubSlug c.key sc.key)) =
      fun acc c =>
        acc ++ (c.key :: c.subcategories.map (fun sc => createdSubSlug c.key sc.key)) := by
    funext acc c
    simp
  rw [hf, foldl_push_eq_flatMap]
  simp

/-- C9: whenever a category and one of its subcategories both score
positively, the detection pass emits the underscore slug `c_s`, while the
category-creation pass only ever creates the hyphen slug `c-s`; the
detected subcategory slug therefore matches no created slug, and no slug
the detector can emit is a created subcategory slug — the slug lookup in
`processAndStoreProduct` can never match a subcategory. -/
theorem c9_subcategory_slug_mismatch (nameF : Str) (description brand specsText : Option Str)
    (c : CatRule) (sc : SubRule) (hc : c ∈ CATEGORY_RULES) (hs : sc ∈ c.subcategories)
    (hmain : 0 < keywordScore (searchTextOf nameF description brand specsText) c.keywords)
    (hsub : 0 < keywordScore (searchTextOf nameF description brand specsText) sc.keywords) :
    detectedSubSlug c.key sc.key ∈ detectProductCategories nameF description brand specsText ∧
    createdSubSlug c.key sc.key ∈ ensuredCategorySlugs ∧
    detectedSubSlug c.key sc.key ∉ ensuredCategorySlugs ∧
    ∀ slug ∈ detectProductCategories nameF description brand specsText,
      slug ∉ ensuredSubcategorySlugs := by
  have hmem := sub_slug_mem_detectEntries _ c sc hc hs hmain hsub
  have hne : detectEntries (searchTextOf nameF description brand specsText) ≠ [] := by
    intro h0
    rw [h0] at hmem
    exact absurd hmem (List.not_mem_nil _)
  refine ⟨?_, ?_, ?_, ?_⟩
  · unfold detectProductCategories
    dsimp only
    rw [if_neg hne]
    exact List.mem_map.mpr
      ⟨_, (List.mergeSort_perm _ _).mem_iff.mpr hmem, rfl⟩
  · rw [ensuredCategorySlugs_eq]
    refine List.mem_append_left _ ?_
    rw [List.mem_flatMap]
    exact ⟨c, hc, List.mem_cons_of_mem _ (List.mem_map.mpr ⟨sc, hs, rfl⟩)⟩
  · fin_cases hc <;> fin_cases hs <;> decide
  · intro slug hslug
    unfold detectProductCategories at hslug
    dsimp only at hslug
    rw [if_neg hne] at hslug
    obtain ⟨e, he, hfst⟩ := List.mem_map.mp hslug
    have he' := (List.mergeSort_perm _ _).mem_iff.mp he
    obtain ⟨c', hc', hshape⟩ := detectEntries_shape _ e he'
    rcases hshape with h | ⟨sc', hsc', h⟩
    · rw [← hfst, h]
      fin_cases hc' <;> decide
    · rw [← hfst, h]
      fin_cases hc' <;> fin_cases hsc' <;> decide

/-- C9 witness: a product whose text is the single word `"bracket"`
scores positively for the orthodontics category and its brackets
subcategory. -/
theorem c9_subcategory_slug_mismatch_witness :
    detectedSubSlug ("orthodontics".toList) ("brackets".toList) ∈
      detectProductCategories ("bracket".toList) none none none ∧
    detectedSubSlug ("orthodontics".toList) ("brackets".toList) ∉ ensuredCategorySlugs := by
  have h := c9_subcategory_slug_mismatch ("bracket".toList) none none none
    (CATEGORY_RULES.get ⟨0, by decide⟩) ((CATEGORY_RULES.get ⟨0, by decide⟩).subcategories.get ⟨0, by decide⟩)
    (List.get_mem CATEGORY_RULES 0 (by decide))
    (List.get_mem (CATEGORY_RULES.get ⟨0, by decide⟩).subcategories 0 (by decide))
    (by decide) (by decide)
  exact ⟨h.1, h.2.2.1⟩

end Dental
